import Mathlib

/-!
Verification of the typed-array storage adapter (`partd/numpy.py`).

The adapter persists numeric arrays in an underlying key-addressed byte
store.  For each data key `k` it keeps the raw buffer at `k` and the
canonical type-descriptor string at `extend(k, ".dtype")`.

This file embeds the adapter's data model and operations shallowly:
Python keys become the inductive `PyKey`, numpy dtypes become `NpDtype`,
the underlying byte store (whose implementation lives in `partd.core`,
outside the translated source; its contract is taken from the spec)
becomes explicit state records with an event log, and fallible Python
code returns `Except String`.
-/

set_option autoImplicit false

/-- A Python key: an atomic string, a (possibly nested) tuple of keys, or
any other object, represented by its canonical string form `str(key)`. -/
inductive PyKey where
  | str (s : String) : PyKey
  | tup (l : List PyKey) : PyKey
  | other (repr : String) : PyKey

mutual

/-- Boolean equality on keys (the nested inductive prevents deriving). -/
def PyKey.beq : PyKey → PyKey → Bool
  | PyKey.str a, PyKey.str b => a == b
  | PyKey.tup a, PyKey.tup b => PyKey.beqList a b
  | PyKey.other a, PyKey.other b => a == b
  | _, _ => false

/-- Boolean equality on lists of keys. -/
def PyKey.beqList : List PyKey → List PyKey → Bool
  | [], [] => true
  | a :: as, b :: bs => PyKey.beq a b && PyKey.beqList as bs
  | _, _ => false

end

mutual

theorem PyKey.beq_iff : ∀ a b : PyKey, PyKey.beq a b = true ↔ a = b
  | PyKey.str a, PyKey.str b => by simp [PyKey.beq]
  | PyKey.str _, PyKey.tup _ => by simp [PyKey.beq]
  | PyKey.str _, PyKey.other _ => by simp [PyKey.beq]
  | PyKey.tup _, PyKey.str _ => by simp [PyKey.beq]
  | PyKey.tup a, PyKey.tup b => by
      simp only [PyKey.beq, PyKey.tup.injEq]
      exact PyKey.beqList_iff a b
  | PyKey.tup _, PyKey.other _ => by simp [PyKey.beq]
  | PyKey.other _, PyKey.str _ => by simp [PyKey.beq]
  | PyKey.other _, PyKey.tup _ => by simp [PyKey.beq]
  | PyKey.other a, PyKey.other b => by simp [PyKey.beq]

theorem PyKey.beqList_iff : ∀ a b : List PyKey, PyKey.beqList a b = true ↔ a = b
  | [], [] => by simp [PyKey.beqList]
  | [], _ :: _ => by simp [PyKey.beqList]
  | _ :: _, [] => by simp [PyKey.beqList]
  | a :: as, b :: bs => by
      simp only [PyKey.beqList, Bool.and_eq_true, List.cons.injEq]
      exact and_congr (PyKey.beq_iff a b) (PyKey.beqList_iff as bs)

end

instance : DecidableEq PyKey := fun a b =>
  decidable_of_iff (PyKey.beq a b = true) (PyKey.beq_iff a b)

/-- The metadata suffix used throughout the adapter. -/
def dtypeSuffix : String := ".dtype"

mutual

/-- Embedding of `extend(key, term)`: a string key gets `term` appended; a
tuple key has its last element extended (empty tuples raise `IndexError`);
any other key is first converted to `str(key)` and then extended — the
string branch is taken immediately on `str(key)`, so it is inlined here. -/
def extend : PyKey → String → Except String PyKey
  | PyKey.str s, t => Except.ok (PyKey.str (s ++ t))
  | PyKey.tup l, t =>
    match extendLast l t with
    | Except.error e => Except.error e
    | Except.ok l' => Except.ok (PyKey.tup l')
  | PyKey.other s, t => Except.ok (PyKey.str (s ++ t))

/-- Embedding of `key[:-1] + (extend(key[-1], term),)` on the component
list of a tuple key: extends the last element, keeping the rest. -/
def extendLast : List PyKey → String → Except String (List PyKey)
  | [], _ => Except.error "IndexError: tuple index out of range"
  | [k], t =>
    match extend k t with
    | Except.error e => Except.error e
    | Except.ok e => Except.ok [e]
  | k :: k2 :: rest, t =>
    match extendLast (k2 :: rest) t with
    | Except.error e => Except.error e
    | Except.ok l' => Except.ok (k :: l')

end

/-- Embedding of the Python expression `k + term` as used by
`PartdNumpy.append`: plain string concatenation, which raises `TypeError`
when `k` is a tuple (or any non-string object). -/
def keyAddStr : PyKey → String → Except String PyKey
  | PyKey.str s, t => Except.ok (PyKey.str (s ++ t))
  | PyKey.tup _, _ => Except.error "TypeError"
  | PyKey.other _, _ => Except.error "TypeError"

/-- Model of the external numpy primitive element types used by the store
(per spec section 3: a numeric kind + width + byte order). -/
inductive PrimTok where
  | int8 | int16 | int32 | int64
  | uint8 | uint16 | uint32 | uint64
  | float32 | float64 | boolTok
deriving DecidableEq

/-- Canonical name of a primitive type: `str(np.dtype(...))`. -/
def PrimTok.name : PrimTok → String
  | PrimTok.int8 => "int8"
  | PrimTok.int16 => "int16"
  | PrimTok.int32 => "int32"
  | PrimTok.int64 => "int64"
  | PrimTok.uint8 => "uint8"
  | PrimTok.uint16 => "uint16"
  | PrimTok.uint32 => "uint32"
  | PrimTok.uint64 => "uint64"
  | PrimTok.float32 => "float32"
  | PrimTok.float64 => "float64"
  | PrimTok.boolTok => "bool"

/-- Array-protocol descriptor string of a primitive type, as numpy renders
it inside a structured dtype (little-endian platform). -/
def PrimTok.descr : PrimTok → String
  | PrimTok.int8 => "|i1"
  | PrimTok.int16 => "<i2"
  | PrimTok.int32 => "<i4"
  | PrimTok.int64 => "<i8"
  | PrimTok.uint8 => "|u1"
  | PrimTok.uint16 => "<u2"
  | PrimTok.uint32 => "<u4"
  | PrimTok.uint64 => "<u8"
  | PrimTok.float32 => "<f4"
  | PrimTok.float64 => "<f8"
  | PrimTok.boolTok => "|b1"

/-- Element size in bytes. -/
def PrimTok.size : PrimTok → Nat
  | PrimTok.int8 => 1
  | PrimTok.int16 => 2
  | PrimTok.int32 => 4
  | PrimTok.int64 => 8
  | PrimTok.uint8 => 1
  | PrimTok.uint16 => 2
  | PrimTok.uint32 => 4
  | PrimTok.uint64 => 8
  | PrimTok.float32 => 4
  | PrimTok.float64 => 8
  | PrimTok.boolTok => 1

/-- Model of `np.dtype(s)` token recognition for primitive strings: numpy
accepts both the canonical name and the array-protocol descriptor. -/
def tokOfString (s : String) : Option PrimTok :=
  match s with
  | "int8" => some PrimTok.int8
  | "int16" => some PrimTok.int16
  | "int32" => some PrimTok.int32
  | "int64" => some PrimTok.int64
  | "uint8" => some PrimTok.uint8
  | "uint16" => some PrimTok.uint16
  | "uint32" => some PrimTok.uint32
  | "uint64" => some PrimTok.uint64
  | "float32" => some PrimTok.float32
  | "float64" => some PrimTok.float64
  | "bool" => some PrimTok.boolTok
  | "|i1" => some PrimTok.int8
  | "<i2" => some PrimTok.int16
  | "<i4" => some PrimTok.int32
  | "<i8" => some PrimTok.int64
  | "|u1" => some PrimTok.uint8
  | "<u2" => some PrimTok.uint16
  | "<u4" => some PrimTok.uint32
  | "<u8" => some PrimTok.uint64
  | "<f4" => some PrimTok.float32
  | "<f8" => some PrimTok.float64
  | "|b1" => some PrimTok.boolTok
  | _ => none

/-- Model of a numpy type descriptor: primitive, or structured as an
ordered list of (field name, primitive type) pairs. -/
inductive NpDtype where
  | prim (t : PrimTok) : NpDtype
  | structured (fields : List (String × PrimTok)) : NpDtype
deriving DecidableEq

/-- The ASCII single-quote character used by Python string repr. -/
def quoteChar : Char := Char.ofNat 39

/-- A one-character string holding the single quote. -/
def quoteStr : String := String.singleton quoteChar

/-- Rendering of one structured field as Python repr prints it. -/
def renderField (f : String × PrimTok) : String :=
  "(" ++ quoteStr ++ f.1 ++ quoteStr ++ ", " ++ quoteStr ++ f.2.descr ++ quoteStr ++ ")"

/-- Model of `str(d)` for a numpy dtype `d`: the canonical name for a
primitive, the Python repr of the field list for a structured dtype. -/
def NpDtype.render : NpDtype → String
  | NpDtype.prim t => t.name
  | NpDtype.structured fs => "[" ++ String.intercalate ", " (fs.map renderField) ++ "]"

/-- Element size in bytes of a dtype. -/
def NpDtype.itemsize : NpDtype → Nat
  | NpDtype.prim t => t.size
  | NpDtype.structured fs => (fs.map (fun f => f.2.size)).sum

/-- Effectful map over a list in the `Except` monad, written out as the
Python list comprehensions it models. -/
def mapME {α β : Type} (f : α → Except String β) : List α → Except String (List β)
  | [] => Except.ok []
  | a :: as =>
    match f a with
    | Except.error e => Except.error e
    | Except.ok b =>
      match mapME f as with
      | Except.error e => Except.error e
      | Except.ok bs => Except.ok (b :: bs)

/-- Effectful map over a list in the `Option` monad. -/
def mapMO {α β : Type} (f : α → Option β) : List α → Option (List β)
  | [] => some []
  | a :: as =>
    match f a with
    | none => none
    | some b =>
      match mapMO f as with
      | none => none
      | some bs => some (b :: bs)

/-- Consume a single-quoted token from a character stream: the opening
quote, the token (any characters up to the next quote), the closing
quote.  Returns the token and the rest of the stream. -/
def parseQuoted (cs : List Char) : Option (String × List Char) :=
  match cs with
  | [] => none
  | c :: rest =>
    if c = quoteChar then
      match rest.span (fun a => a ≠ quoteChar) with
      | (name, rest') =>
        match rest' with
        | [] => none
        | _ :: rest'' => some (String.mk name, rest'')
    else none

/-- Consume one `(name, type)` pair, both components single-quoted, from a
character stream. -/
def parsePair (cs : List Char) : Option ((String × String) × List Char) :=
  match cs with
  | '(' :: rest =>
    match parseQuoted rest with
    | none => none
    | some (name, r1) =>
      match r1 with
      | ',' :: ' ' :: r2 =>
        match parseQuoted r2 with
        | none => none
        | some (ty, r3) =>
          match r3 with
          | ')' :: r4 => some ((name, ty), r4)
          | _ => none
      | _ => none
  | _ => none

/-- Consume a comma-separated sequence of pairs; `fuel` bounds the number
of pairs and is instantiated with the stream length. -/
def parsePairsAux : Nat → List Char → Option (List (String × String) × List Char)
  | 0, _ => none
  | fuel + 1, cs =>
    match parsePair cs with
    | none => none
    | some (p, rest) =>
      match rest with
      | ',' :: ' ' :: rest' =>
        match parsePairsAux fuel rest' with
        | none => none
        | some (ps, rest'') => some (p :: ps, rest'')
      | _ => some ([p], rest)

/-- Model of `eval(s)` restricted to the shape the adapter feeds it: a
Python list literal of `(name, type)` string pairs, exactly as rendered
by `str` of a structured dtype.  Any other input fails (the raised
evaluation error). -/
def evalFieldList (s : String) : Option (List (String × String)) :=
  match s.data with
  | '[' :: rest =>
    match parsePairsAux (rest.length + 1) rest with
    | none => none
    | some (ps, rest') => if rest' = [']'] then some ps else none
  | _ => none

/-- Model of `np.dtype(obj)` applied to an evaluated field list: each type
string must name a primitive type; the result is the structured dtype. -/
def npDtypeOfPairs (ps : List (String × String)) : Except String NpDtype :=
  match mapMO (fun p => (tokOfString p.2).map (fun tk => (p.1, tk))) ps with
  | some fs => Except.ok (NpDtype.structured fs)
  | none => Except.error "TypeError: data type not understood"

/-- Model of `np.dtype(s)` on a string: primitive token recognition only
(numpy does not parse the rendered structured form back from a string). -/
def npDtypeOfString (s : String) : Except String NpDtype :=
  match tokOfString s with
  | some tk => Except.ok (NpDtype.prim tk)
  | none => Except.error "TypeError: data type not understood"

/-- Embedding of `parse_dtype(s)`: if the string contains `[` it is
evaluated as a structured-descriptor expression and passed to
`np.dtype`; otherwise it is parsed as a primitive type token. -/
def parse_dtype (s : String) : Except String NpDtype :=
  if '[' ∈ s.data then
    match evalFieldList s with
    | none => Except.error "SyntaxError: eval failed"
    | some ps => npDtypeOfPairs ps
  else
    npDtypeOfString s

example : parse_dtype "int32" = Except.ok (NpDtype.prim PrimTok.int32) := rfl
example : parse_dtype ((NpDtype.structured [("a", PrimTok.int32)]).render) =
    Except.ok (NpDtype.structured [("a", PrimTok.int32)]) := rfl
example : extend (PyKey.str "x") ".dtype" = Except.ok (PyKey.str "x.dtype") := rfl
example : extend (PyKey.tup [PyKey.str "a", PyKey.str "b", PyKey.str "c"]) ".dtype" =
    Except.ok (PyKey.tup [PyKey.str "a", PyKey.str "b", PyKey.str "c.dtype"]) := rfl
example : extend (PyKey.other "5") ".dtype" = Except.ok (PyKey.str "5.dtype") := rfl
example : extend (PyKey.tup []) ".dtype" =
    Except.error "IndexError: tuple index out of range" := rfl

/-- Raw bytes, modelled as a list of byte values. -/
abbrev Bytes := List Nat

/-- A store location (the `path` argument of the functional interface). -/
abbrev Loc := String

/-- A value held by one byte-store entry: raw data bytes, or the UTF-8
text of a type-descriptor string. -/
inductive Val where
  | bytes (b : Bytes) : Val
  | str (s : String) : Val
deriving DecidableEq

/-- Model of a numpy array as the adapter sees it: an immutable flat byte
buffer (`x.tobytes()`) together with its element type descriptor. -/
structure NpArray where
  buffer : Bytes
  dtype : NpDtype
deriving DecidableEq

/-- Model of `np.frombuffer(b, dtype)`: a zero-copy typed view, failing
when the buffer length is not a multiple of the element size. -/
def npFrombuffer (b : Bytes) (d : NpDtype) : Except String NpArray :=
  if d.itemsize = 0 then Except.error "ValueError: itemsize is zero"
  else if b.length % d.itemsize = 0 then Except.ok (NpArray.mk b d)
  else Except.error "ValueError: buffer size must be a multiple of element size"

/-- One `np.frombuffer(bytes_i, dtype_i)` step of the functional loader,
where the dtype is an already-parsed descriptor object and the stored
value must be raw bytes. -/
def frombufferVal (v : Val) (d : NpDtype) : Except String NpArray :=
  match v with
  | Val.bytes b => npFrombuffer b d
  | Val.str _ => Except.error "TypeError: a bytes-like object is required"

/-- One `np.frombuffer(bytes_i, dtype_i)` step of `PartdNumpy._get`,
where the dtype argument is the raw descriptor string read from the
store and numpy coerces it with `np.dtype` (primitive tokens only — the
structured rendered form is not accepted by `np.dtype` on strings). -/
def npFrombufferStr (v dv : Val) : Except String NpArray :=
  match v, dv with
  | Val.bytes b, Val.str s =>
    (match npDtypeOfString s with
     | Except.error e => Except.error e
     | Except.ok d => npFrombuffer b d)
  | _, _ => Except.error "TypeError"

/-- `parse_dtype` applied to one value read from the store: descriptor
entries hold text; raw bytes fail the string operations inside. -/
def parse_dtype_val (v : Val) : Except String NpDtype :=
  match v with
  | Val.str s => parse_dtype s
  | Val.bytes _ => Except.error "TypeError: expected str"

/-- First-match association-list lookup (later writes are prepended, so
the first match is the current value). -/
def alookup {α β : Type} [DecidableEq α] : List (α × β) → α → Option β
  | [], _ => none
  | kv :: rest, k => if kv.1 = k then some kv.2 else alookup rest k

/-- An observable call made by this layer against the underlying byte
store's functional interface. -/
inductive CoreEvent where
  | put (p : Loc) (kvs : List (PyKey × Val)) : CoreEvent
  | get (p : Loc) (ks : List PyKey) (lock : Bool) : CoreEvent
  | ensure (p : Loc) (k : PyKey) (v : Val) : CoreEvent
deriving DecidableEq

/-- State of the underlying byte store for the functional interface:
current entries (first match wins) plus a log of the calls issued, used
to observe how many reads this layer performs. -/
structure CoreState where
  entries : List ((Loc × PyKey) × Val)
  log : List CoreEvent
deriving DecidableEq

/-- Modelled from the spec: `core.put(path, mapping, **kwargs)` of the
underlying byte store (its source is outside the translated file) —
write-or-overwrite every pair. -/
def corePut (p : Loc) (kvs : List (PyKey × Val)) (st : CoreState) : CoreState :=
  CoreState.mk (kvs.foldl (fun es kv => ((p, kv.1), kv.2) :: es) st.entries)
    (st.log ++ [CoreEvent.put p kvs])

/-- Modelled from the spec: `core.ensure(path, key, value)` — idempotent
insert-or-set of a single metadata value. -/
def coreEnsure (p : Loc) (k : PyKey) (v : Val) (st : CoreState) : CoreState :=
  CoreState.mk (((p, k), v) :: st.entries) (st.log ++ [CoreEvent.ensure p k v])

/-- The type of the `get=` parameter of the functional interface: a
batched, order-preserving read against a store location. -/
abbrev GetFn := Loc → List PyKey → Bool → CoreState → Except String (List Val × CoreState)

/-- The type of the `put=` parameter of the functional interface. -/
abbrev PutFn := Loc → List (PyKey × Val) → CoreState → CoreState

/-- Modelled from the spec: `core.get(path, keys, lock=...)` — batched
read returning values in input key order; a missing key raises. -/
def coreGet : GetFn := fun p keys lock st =>
  match mapMO (fun k => alookup st.entries (p, k)) keys with
  | some vs => Except.ok (vs, CoreState.mk st.entries (st.log ++ [CoreEvent.get p keys lock]))
  | none => Except.error "KeyError"

/-- The process-wide memo table of `dtypes`, keyed by
`(args[0], tuple(args[1]))`, that is `(path, tuple(keys))`, modelled as
explicit state. -/
abbrev DtypeCache := List ((Loc × List PyKey) × List NpDtype)

/-- Embedding of the memoized `dtypes(path, keys, get=core.get,
lock=False, **kwargs)`: on a hit return the cached list untouched; on a
miss extend every key with `.dtype`, issue one batched read through the
`get` argument, parse every returned string, and cache the list under
`(path, tuple(keys))`. -/
def dtypes (getFn : GetFn) (path : Loc) (keys : List PyKey) (lock : Bool)
    (cache : DtypeCache) (st : CoreState) :
    Except String (List NpDtype × DtypeCache × CoreState) :=
  match alookup cache (path, keys) with
  | some ds => Except.ok (ds, cache, st)
  | none =>
    match mapME (fun k => extend k dtypeSuffix) keys with
    | Except.error e => Except.error e
    | Except.ok dtKeys =>
      match getFn path dtKeys lock st with
      | Except.error e => Except.error e
      | Except.ok (text, st1) =>
        match mapME parse_dtype_val text with
        | Except.error e => Except.error e
        | Except.ok ds => Except.ok (ds, ((path, keys), ds) :: cache, st1)

/-- The metadata loop of the functional `put`: for every `(k, v)` pair,
`core.ensure(path, extend(k, '.dtype'), str(v.dtype))`. -/
def ensureLoop (path : Loc) (data : List (PyKey × NpArray)) (st : CoreState) :
    Except String CoreState :=
  match data with
  | [] => Except.ok st
  | kv :: rest =>
    match extend kv.1 dtypeSuffix with
    | Except.error e => Except.error e
    | Except.ok k2 => ensureLoop path rest (coreEnsure path k2 (Val.str kv.2.dtype.render) st)

/-- Embedding of the functional `put(path, data, put=core.put,
**kwargs)`: serialize every array to bytes, write them in one batched
put, then ensure each rendered dtype string at the extended key. -/
def numpy.put (putFn : PutFn) (path : Loc) (data : List (PyKey × NpArray)) (st : CoreState) :
    Except String CoreState :=
  ensureLoop path data (putFn path (data.map (fun kv => (kv.1, Val.bytes kv.2.buffer))) st)

/-- Embedding of the functional `get(path, keys, get=core.get,
**kwargs)`: one batched read of the raw bytes, one (memoized) dtype
resolution, then zip into typed views in key order. -/
def numpy.get (getFn : GetFn) (path : Loc) (keys : List PyKey) (lock : Bool)
    (cache : DtypeCache) (st : CoreState) :
    Except String (List NpArray × DtypeCache × CoreState) :=
  match getFn path keys lock st with
  | Except.error e => Except.error e
  | Except.ok (bytes, st1) =>
    match dtypes getFn path keys lock cache st1 with
    | Except.error e => Except.error e
    | Except.ok (dts, cache1, st2) =>
      match mapME (fun bd => frombufferVal bd.1 bd.2) (bytes.zip dts) with
      | Except.error e => Except.error e
      | Except.ok arrs => Except.ok (arrs, cache1, st2)

/-- An observable call made by the incremental object against its
underlying store handle (`self.partd`). -/
inductive PEvent where
  | iset (k : PyKey) (v : Val) : PEvent
  | append (kvs : List (PyKey × Bytes)) : PEvent
  | get (ks : List PyKey) (lock : Bool) : PEvent
  | delete (ks : List PyKey) : PEvent
deriving DecidableEq

/-- State of the underlying store handle held by the incremental object:
current entries (first match wins) plus the log of issued calls. -/
structure PartdState where
  entries : List (PyKey × Val)
  log : List PEvent
deriving DecidableEq

/-- Modelled from the spec: the handle's `_iset(key, value)` — idempotent
insert-or-set of a single value. -/
def partdIset (k : PyKey) (v : Val) (st : PartdState) : PartdState :=
  PartdState.mk ((k, v) :: st.entries) (st.log ++ [PEvent.iset k v])

/-- Append bytes to one existing entry, or create it. -/
def appendEntry (k : PyKey) (b : Bytes) (es : List (PyKey × Val)) : List (PyKey × Val) :=
  match alookup es k with
  | some (Val.bytes old) => (k, Val.bytes (old ++ b)) :: es
  | some (Val.str _) => (k, Val.bytes b) :: es
  | none => (k, Val.bytes b) :: es

/-- Modelled from the spec: the handle's batched `append(mapping,
**kwargs)` — append bytes to existing-or-created entries. -/
def partdAppend (kvs : List (PyKey × Bytes)) (st : PartdState) : PartdState :=
  PartdState.mk (kvs.foldl (fun es kv => appendEntry kv.1 kv.2 es) st.entries)
    (st.log ++ [PEvent.append kvs])

/-- Modelled from the spec: the handle's batched `_get(keys, lock=...)` —
ordered read of the requested keys; a missing key raises. -/
def partdGetOp (keys : List PyKey) (lock : Bool) (st : PartdState) :
    Except String (List Val × PartdState) :=
  match mapMO (alookup st.entries) keys with
  | some vs => Except.ok (vs, PartdState.mk st.entries (st.log ++ [PEvent.get keys lock]))
  | none => Except.error "KeyError"

/-- Modelled from the spec: the handle's `delete(keys, **kwargs)` —
remove exactly the entries at the listed keys. -/
def partdDelete (keys : List PyKey) (st : PartdState) : PartdState :=
  PartdState.mk (st.entries.filter (fun kv => decide (kv.1 ∉ keys)))
    (st.log ++ [PEvent.delete keys])

/-- The metadata loop of `PartdNumpy.append`: for every `(k, v)` pair,
`self.partd._iset(k + '.dtype', str(v.dtype))` — note the plain string
concatenation `k + '.dtype'`, not `extend`. -/
def isetLoop (data : List (PyKey × NpArray)) (st : PartdState) : Except String PartdState :=
  match data with
  | [] => Except.ok st
  | kv :: rest =>
    match keyAddStr kv.1 dtypeSuffix with
    | Except.error e => Except.error e
    | Except.ok k2 => isetLoop rest (partdIset k2 (Val.str kv.2.dtype.render) st)

/-- Embedding of `PartdNumpy.append(data, **kwargs)`: first write every
dtype string via `_iset` on the concatenated key, then one batched
append of every array's flattened bytes. -/
def PartdNumpy.append (data : List (PyKey × NpArray)) (st : PartdState) :
    Except String PartdState :=
  match isetLoop data st with
  | Except.error e => Except.error e
  | Except.ok st1 =>
    Except.ok (partdAppend (data.map (fun kv => (kv.1, kv.2.buffer))) st1)

/-- Embedding of `PartdNumpy._get(keys, **kwargs)`: read the raw bytes
for `keys`, then freshly read the dtype strings at
`extend(key, '.dtype')` with `lock=False`, and zip into typed views
(numpy coerces each raw dtype string). -/
def PartdNumpy.get (keys : List PyKey) (lock : Bool) (st : PartdState) :
    Except String (List NpArray × PartdState) :=
  match partdGetOp keys lock st with
  | Except.error e => Except.error e
  | Except.ok (bytes, st1) =>
    match mapME (fun k => extend k dtypeSuffix) keys with
    | Except.error e => Except.error e
    | Except.ok dtKeys =>
      match partdGetOp dtKeys false st1 with
      | Except.error e => Except.error e
      | Except.ok (dvs, st2) =>
        match mapME (fun bd => npFrombufferStr bd.1 bd.2) (bytes.zip dvs) with
        | Except.error e => Except.error e
        | Except.ok arrs => Except.ok (arrs, st2)

/-- Embedding of `PartdNumpy.delete(keys, **kwargs)`: delete the
metadata entries `extend(key, '.dtype')` via the underlying handle; the
data keys themselves are not touched. -/
def PartdNumpy.delete (keys : List PyKey) (st : PartdState) : Except String PartdState :=
  match mapME (fun k => extend k dtypeSuffix) keys with
  | Except.error e => Except.error e
  | Except.ok keys2 => Except.ok (partdDelete keys2 st)

/-- A concrete sample array: four bytes viewed as one little-endian
32-bit integer. -/
def arrW : NpArray := NpArray.mk [1, 2, 3, 4] (NpDtype.prim PrimTok.int32)

/-- A second sample array with a structured dtype. -/
def arrS : NpArray :=
  NpArray.mk [1, 2, 3, 4, 5, 6, 7, 8, 9, 10, 11, 12]
    (NpDtype.structured [("a", PrimTok.int32), ("b", PrimTok.float64)])

/-- An empty functional-interface store. -/
def st0 : CoreState := CoreState.mk [] []

/-- A functional-interface store holding one array and its descriptor at
location `p`. -/
def stW : CoreState :=
  CoreState.mk
    [(("p", PyKey.str "x"), Val.bytes [1, 2, 3, 4]),
     (("p", PyKey.str "x.dtype"), Val.str "int32")] []

/-- A handle state holding one array and its descriptor. -/
def stP : PartdState :=
  PartdState.mk
    [(PyKey.str "x", Val.bytes [1, 2, 3, 4]),
     (PyKey.str "x.dtype", Val.str "int32")] []

/-- A handle state where the key `x.dtype` is also used as a data key:
the overlap that breaks the naive reading of `delete`. -/
def stCX : PartdState :=
  PartdState.mk
    [(PyKey.str "x", Val.bytes [1]),
     (PyKey.str "x.dtype", Val.bytes [7])] []

/-- A `get` function that always raises, used to observe that a cache
hit never consults the store. -/
def gErr : GetFn := fun _ _ _ _ => Except.error "store should not be read"

theorem String.length_ne_zero_of_ne_empty (t : String) (ht : t ≠ "") : t.length ≠ 0 := by
  cases t with
  | mk data =>
    intro h0
    apply ht
    have hdata : data = [] := List.length_eq_zero.mp h0
    simp [hdata]

mutual

theorem extend_ne : ∀ (k : PyKey) (t : String), t ≠ "" →
    ∀ k', extend k t = Except.ok k' → k' ≠ k
  | PyKey.str s, t, ht, k', h => by
      simp only [extend] at h
      injection h with h
      subst h
      intro hEq
      injection hEq with hEq
      have hlen : (s ++ t).length = s.length := by rw [hEq]
      rw [String.length_append] at hlen
      exact String.length_ne_zero_of_ne_empty t ht (by omega)
  | PyKey.tup l, t, ht, k', h => by
      simp only [extend] at h
      cases hE : extendLast l t with
      | error e => rw [hE] at h; exact absurd h (by simp)
      | ok l' =>
        rw [hE] at h
        injection h with h
        subst h
        intro hEq
        injection hEq with hEq
        exact extendLast_ne l t ht l' hE hEq
  | PyKey.other s, t, ht, k', h => by
      simp only [extend] at h
      injection h with h
      subst h
      intro hEq
      exact PyKey.noConfusion hEq

theorem extendLast_ne : ∀ (l : List PyKey) (t : String), t ≠ "" →
    ∀ l', extendLast l t = Except.ok l' → l' ≠ l
  | [], _, _, l', h => by simp [extendLast] at h
  | [k], t, ht, l', h => by
      simp only [extendLast] at h
      cases hE : extend k t with
      | error e => rw [hE] at h; exact absurd h (by simp)
      | ok e =>
        rw [hE] at h
        injection h with h
        subst h
        intro hEq
        injection hEq with h1 h2
        exact extend_ne k t ht e hE h1
  | k :: k2 :: rest, t, ht, l', h => by
      simp only [extendLast] at h
      cases hE : extendLast (k2 :: rest) t with
      | error e => rw [hE] at h; exact absurd h (by simp)
      | ok l2 =>
        rw [hE] at h
        injection h with h
        subst h
        intro hEq
        injection hEq with h1 h2
        exact extendLast_ne (k2 :: rest) t ht l2 hE h2

end

theorem extendLast_eq_getLast : ∀ (l : List PyKey) (hl : l ≠ []) (t : String),
    extendLast l t = (extend (l.getLast hl) t).map (fun e => l.dropLast ++ [e])
  | [], hl, _ => absurd rfl hl
  | [k], _, t => by
      simp only [extendLast, List.getLast_singleton, List.dropLast_single]
      cases extend k t <;> simp [Except.map]
  | k :: k2 :: rest, _, t => by
      rw [extendLast]
      rw [extendLast_eq_getLast (k2 :: rest) (by simp) t]
      rw [List.getLast_cons (by simp : k2 :: rest ≠ [])]
      cases extend ((k2 :: rest).getLast (by simp)) t <;> simp [Except.map]

theorem alookup_filter_of_mem (es : List (PyKey × Val)) (keys : List PyKey) (k : PyKey)
    (hk : k ∈ keys) :
    alookup (es.filter (fun kv => decide (kv.1 ∉ keys))) k = none := by
  induction es with
  | nil => rfl
  | cons kv rest ih =>
    by_cases hkv : kv.1 ∈ keys
    · rw [List.filter_cons, if_neg (by simp [hkv])]
      exact ih
    · have hne : kv.1 ≠ k := fun hEq => hkv (hEq ▸ hk)
      rw [List.filter_cons, if_pos (by simp [hkv])]
      simp only [alookup]
      rw [if_neg hne]
      exact ih

theorem alookup_filter_of_not_mem (es : List (PyKey × Val)) (keys : List PyKey) (k : PyKey)
    (hk : k ∉ keys) :
    alookup (es.filter (fun kv => decide (kv.1 ∉ keys))) k = alookup es k := by
  induction es with
  | nil => rfl
  | cons kv rest ih =>
    by_cases hkv : kv.1 ∈ keys
    · have hne : kv.1 ≠ k := fun hEq => hk (hEq ▸ hkv)
      rw [List.filter_cons, if_neg (by simp [hkv])]
      rw [ih]
      simp only [alookup]
      rw [if_neg hne]
    · rw [List.filter_cons, if_pos (by simp [hkv])]
      simp only [alookup]
      by_cases hEq : kv.1 = k
      · rw [if_pos hEq, if_pos hEq]
      · rw [if_neg hEq, if_neg hEq]
        exact ih

/-- C2: `extend` on an atomic string key appends the suffix; on a
non-empty tuple key it returns the same tuple with only the last element
extended (recursively); on any other key it extends the canonical string
representation, which is string append again. -/
theorem extend_contract :
    (∀ (s t : String), extend (PyKey.str s) t = Except.ok (PyKey.str (s ++ t))) ∧
    (∀ (l : List PyKey) (hl : l ≠ []) (t : String),
      extend (PyKey.tup l) t =
        (extend (l.getLast hl) t).map (fun e => PyKey.tup (l.dropLast ++ [e]))) ∧
    (∀ (s t : String), extend (PyKey.other s) t = extend (PyKey.str s) t) := by
  refine ⟨fun s t => rfl, ?_, fun s t => rfl⟩
  intro l hl t
  simp only [extend]
  rw [extendLast_eq_getLast l hl t]
  cases extend (l.getLast hl) t <;> simp [Except.map]

/-- Witness for C2 at the concrete tuple key `('a', 'b')`. -/
theorem extend_contract_witness :
    extend (PyKey.tup [PyKey.str "a", PyKey.str "b"]) ".dtype" =
      (extend ([PyKey.str "a", PyKey.str "b"].getLast (by decide)) ".dtype").map
        (fun e => PyKey.tup ([PyKey.str "a", PyKey.str "b"].dropLast ++ [e])) :=
  extend_contract.2.1 [PyKey.str "a", PyKey.str "b"] (by decide) ".dtype"

/-- C9: on the empty tuple key, `extend` raises `IndexError` (it indexes
the last element of the tuple) instead of returning a key, whatever the
suffix is. -/
theorem extend_empty_tuple_indexerror (t : String) :
    extend (PyKey.tup []) t = Except.error "IndexError: tuple index out of range" := rfl

/-- C6: parsing the rendered canonical string of a primitive type
descriptor yields the descriptor back, for every primitive type. -/
theorem parse_render_primitive (tk : PrimTok) :
    parse_dtype ((NpDtype.prim tk).render) = Except.ok (NpDtype.prim tk) := by
  cases tk <;> rfl

/-- C5: whenever `parse_dtype` succeeds, an input containing `[` was
interpreted as a structured-descriptor expression and produced a
structured descriptor, and an input without `[` was parsed as a
primitive type token and produced a primitive descriptor. -/
theorem parse_dtype_dispatch (s : String) (d : NpDtype)
    (h : parse_dtype s = Except.ok d) :
    (('[') ∈ s.data → ∃ fs, d = NpDtype.structured fs) ∧
    (('[') ∉ s.data → ∃ tk, d = NpDtype.prim tk) := by
  constructor
  · intro hmem
    rw [parse_dtype, if_pos hmem] at h
    split at h
    · exact absurd h (by simp)
    · unfold npDtypeOfPairs at h
      split at h
      · injection h with h
        exact ⟨_, h.symm⟩
      · exact absurd h (by simp)
  · intro hmem
    rw [parse_dtype, if_neg hmem] at h
    unfold npDtypeOfString at h
    split at h
    · injection h with h
      exact ⟨_, h.symm⟩
    · exact absurd h (by simp)

/-- Witness for C5 at the rendered structured descriptor
`[('a', '<i4')]`. -/
theorem parse_dtype_dispatch_witness :
    ((('[') ∈ (NpDtype.structured [("a", PrimTok.int32)]).render.data →
        ∃ fs, NpDtype.structured [("a", PrimTok.int32)] = NpDtype.structured fs) ∧
     (('[') ∉ (NpDtype.structured [("a", PrimTok.int32)]).render.data →
        ∃ tk, NpDtype.structured [("a", PrimTok.int32)] = NpDtype.prim tk)) :=
  parse_dtype_dispatch (NpDtype.structured [("a", PrimTok.int32)]).render
    (NpDtype.structured [("a", PrimTok.int32)]) rfl

/-- C3 (code bug): `PartdNumpy.append` computes the metadata key with
plain string concatenation `k + '.dtype'` rather than `extend`, so on a
hierarchical tuple key it raises `TypeError` before writing anything,
while the sibling methods `_get` and `delete` locate metadata with
`extend`. -/
theorem append_tuple_key_typeerror :
    PartdNumpy.append [(PyKey.tup [PyKey.str "a", PyKey.str "b"], arrW)]
      (PartdState.mk [] []) = Except.error "TypeError" := rfl

/-- C7: `PartdNumpy._get` issues one data read for `keys` (passing the
caller's lock option), recomputes the metadata keys, issues one fresh
uncached metadata read for them with locking disabled, and returns the
typed views zipped in key order; the store entries are untouched and the
two reads are the only store interactions. -/
theorem partdnumpy_get_fresh (keys dtKeys : List PyKey) (lock : Bool) (st : PartdState)
    (vs dvs : List Val) (arrs : List NpArray)
    (hext : mapME (fun k => extend k dtypeSuffix) keys = Except.ok dtKeys)
    (hb : mapMO (alookup st.entries) keys = some vs)
    (hd : mapMO (alookup st.entries) dtKeys = some dvs)
    (hfb : mapME (fun bd => npFrombufferStr bd.1 bd.2) (vs.zip dvs) = Except.ok arrs) :
    PartdNumpy.get keys lock st =
      Except.ok (arrs,
        PartdState.mk st.entries
          (st.log ++ [PEvent.get keys lock, PEvent.get dtKeys false])) := by
  simp only [PartdNumpy.get, partdGetOp, hb, hext, hd, hfb, List.append_assoc,
    List.cons_append, List.nil_append]

/-- Witness for C7 at a one-key store holding `int32` data. -/
theorem partdnumpy_get_fresh_witness :
    PartdNumpy.get [PyKey.str "x"] true stP =
      Except.ok ([arrW],
        PartdState.mk stP.entries
          (stP.log ++ [PEvent.get [PyKey.str "x"] true,
                       PEvent.get [PyKey.str "x.dtype"] false])) :=
  partdnumpy_get_fresh [PyKey.str "x"] [PyKey.str "x.dtype"] true stP
    [Val.bytes [1, 2, 3, 4]] [Val.str "int32"] [arrW] rfl rfl rfl rfl

/-- C8 counterexample: with keys `["x", "x.dtype"]`, the data entry
stored at the key `"x.dtype"` — one of the keys passed to `delete` — is
removed, because `extend("x", ".dtype")` collides with it; so `delete`
does not leave the data entries at the passed keys unchanged. -/
theorem delete_overlap_counterexample :
    alookup stCX.entries (PyKey.str "x.dtype") = some (Val.bytes [7]) ∧
    ∃ st', PartdNumpy.delete [PyKey.str "x", PyKey.str "x.dtype"] stCX = Except.ok st' ∧
      alookup st'.entries (PyKey.str "x.dtype") = none := by
  exact ⟨rfl, _, rfl, rfl⟩

/-- C8 (amended): `delete` removes exactly the metadata entries
`extend(key, '.dtype')` of the listed keys, in one batched handle
delete; every entry whose key is not among those extended keys — in
particular any data key that is not itself the `.dtype`-extension of a
listed key — is unchanged and still readable. -/
theorem delete_removes_metadata_only (keys dtKeys : List PyKey) (st : PartdState)
    (hext : mapME (fun k => extend k dtypeSuffix) keys = Except.ok dtKeys) :
    PartdNumpy.delete keys st = Except.ok (partdDelete dtKeys st) ∧
    (∀ k, k ∈ dtKeys → alookup (partdDelete dtKeys st).entries k = none) ∧
    (∀ k, k ∉ dtKeys → alookup (partdDelete dtKeys st).entries k = alookup st.entries k) ∧
    (partdDelete dtKeys st).log = st.log ++ [PEvent.delete dtKeys] := by
  refine ⟨?_, ?_, ?_, rfl⟩
  · unfold PartdNumpy.delete
    rw [hext]
  · intro k hk
    exact alookup_filter_of_mem st.entries dtKeys k hk
  · intro k hk
    exact alookup_filter_of_not_mem st.entries dtKeys k hk

/-- Witness for C8 (amended) on a concrete one-array store. -/
theorem delete_removes_metadata_only_witness :
    PartdNumpy.delete [PyKey.str "x"] stP =
      Except.ok (partdDelete [PyKey.str "x.dtype"] stP) ∧
    (∀ k, k ∈ [PyKey.str "x.dtype"] →
      alookup (partdDelete [PyKey.str "x.dtype"] stP).entries k = none) ∧
    (∀ k, k ∉ [PyKey.str "x.dtype"] →
      alookup (partdDelete [PyKey.str "x.dtype"] stP).entries k = alookup stP.entries k) ∧
    (partdDelete [PyKey.str "x.dtype"] stP).log = stP.log ++ [PEvent.delete [PyKey.str "x.dtype"]] :=
  delete_removes_metadata_only [PyKey.str "x"] [PyKey.str "x.dtype"] stP rfl

/-- C4: a miss of the dtype cache extends every key with `.dtype`,
issues exactly one batched read against the byte store for all the
extended keys, parses the returned strings in input-key order and caches
the list; the following call with the same `(path, keys)` returns the
identical list and leaves any store state untouched (no additional
read). -/
theorem dtypes_miss_then_hit (path : Loc) (keys dtKeys : List PyKey) (lock lock2 : Bool)
    (cache : DtypeCache) (st : CoreState) (text : List Val) (ds : List NpDtype)
    (hmiss : alookup cache (path, keys) = none)
    (hext : mapME (fun k => extend k dtypeSuffix) keys = Except.ok dtKeys)
    (hread : mapMO (fun k => alookup st.entries (path, k)) dtKeys = some text)
    (hparse : mapME parse_dtype_val text = Except.ok ds) :
    dtypes coreGet path keys lock cache st =
      Except.ok (ds, ((path, keys), ds) :: cache,
        CoreState.mk st.entries (st.log ++ [CoreEvent.get path dtKeys lock])) ∧
    (∀ st2 : CoreState,
      dtypes coreGet path keys lock2 (((path, keys), ds) :: cache) st2 =
        Except.ok (ds, ((path, keys), ds) :: cache, st2)) := by
  constructor
  · simp only [dtypes, hmiss, hext, coreGet, hread, hparse]
  · intro st2
    simp only [dtypes, alookup, if_pos]

/-- Witness for C4 on a concrete store and an empty cache. -/
theorem dtypes_miss_then_hit_witness :
    dtypes coreGet "p" [PyKey.str "x"] false [] stW =
      Except.ok ([NpDtype.prim PrimTok.int32],
        (("p", [PyKey.str "x"]), [NpDtype.prim PrimTok.int32]) :: [],
        CoreState.mk stW.entries
          (stW.log ++ [CoreEvent.get "p" [PyKey.str "x.dtype"] false])) ∧
    (∀ st2 : CoreState,
      dtypes coreGet "p" [PyKey.str "x"] true
          ((("p", [PyKey.str "x"]), [NpDtype.prim PrimTok.int32]) :: []) st2 =
        Except.ok ([NpDtype.prim PrimTok.int32],
          (("p", [PyKey.str "x"]), [NpDtype.prim PrimTok.int32]) :: [], st2)) :=
  dtypes_miss_then_hit "p" [PyKey.str "x"] [PyKey.str "x.dtype"] false true [] stW
    [Val.str "int32"] [NpDtype.prim PrimTok.int32] rfl rfl rfl rfl

/-- C10: after any successful `dtypes` call, a second call with the same
`(path, keys)` pair hits the cache and returns the first call's list
unchanged, regardless of the `get` function, the lock flag, or the store
state of the second call — the memoization key is exactly
`(path, tuple(keys))`. -/
theorem dtypes_cache_key_only (g1 g2 : GetFn) (path : Loc) (keys : List PyKey)
    (lock1 lock2 : Bool) (cache c' : DtypeCache) (st st' st2 : CoreState)
    (ds : List NpDtype)
    (h : dtypes g1 path keys lock1 cache st = Except.ok (ds, c', st')) :
    dtypes g2 path keys lock2 c' st2 = Except.ok (ds, c', st2) := by
  have hc : alookup c' (path, keys) = some ds := by
    unfold dtypes at h
    split at h
    · rename_i ds0 heq
      simp only [Except.ok.injEq, Prod.mk.injEq] at h
      obtain ⟨h1, h2, _⟩ := h
      rw [← h2, ← h1]
      exact heq
    · split at h
      · simp at h
      · split at h
        · simp at h
        · split at h
          · simp at h
          · simp only [Except.ok.injEq, Prod.mk.injEq] at h
            obtain ⟨h1, h2, _⟩ := h
            rw [← h2]
            simp only [alookup, if_pos]
            rw [h1]
  simp only [dtypes, hc]

/-- Witness for C10: the first call misses and reads the store; the
second call, with a `get` function that always raises and a different
lock flag, still returns the cached list with its store state untouched. -/
theorem dtypes_cache_key_only_witness :
    dtypes gErr "p" [PyKey.str "x"] true
        ((("p", [PyKey.str "x"]), [NpDtype.prim PrimTok.int32]) :: []) st0 =
      Except.ok ([NpDtype.prim PrimTok.int32],
        (("p", [PyKey.str "x"]), [NpDtype.prim PrimTok.int32]) :: [], st0) :=
  dtypes_cache_key_only coreGet gErr "p" [PyKey.str "x"] false true []
    ((("p", [PyKey.str "x"]), [NpDtype.prim PrimTok.int32]) :: []) stW
    (CoreState.mk stW.entries
      (stW.log ++ [CoreEvent.get "p" [PyKey.str "x.dtype"] false])) st0
    [NpDtype.prim PrimTok.int32] rfl

/-- C1: storing `{k: A}` with the functional bulk store and then loading
`[k]` returns a one-element list whose array view has a buffer
byte-equal to `A`'s flattened buffer and a descriptor equal to `A`'s —
under the conditions the claim presupposes: `extend` succeeds on `k`
(put would raise otherwise), the process-wide dtype cache holds no stale
entry for `(path, [k])`, the rendered descriptor round-trips through
`parse_dtype` (the codec invariant of spec section 3), and the buffer
length is a multiple of the element size (true of every `tobytes`
result). -/
theorem put_get_roundtrip (path : Loc) (k dk : PyKey) (A : NpArray) (st : CoreState)
    (cache : DtypeCache) (lock : Bool)
    (hdk : extend k dtypeSuffix = Except.ok dk)
    (hmiss : alookup cache (path, [k]) = none)
    (hrt : parse_dtype A.dtype.render = Except.ok A.dtype)
    (hsz1 : A.dtype.itemsize ≠ 0)
    (hsz2 : A.buffer.length % A.dtype.itemsize = 0) :
    ∃ st1, numpy.put corePut path [(k, A)] st = Except.ok st1 ∧
      ∃ c2 st2, numpy.get coreGet path [k] lock cache st1 =
        Except.ok ([NpArray.mk A.buffer A.dtype], c2, st2) := by
  have hne : dk ≠ k := extend_ne k dtypeSuffix (by decide) dk hdk
  have hne2 : ((path, dk) : Loc × PyKey) ≠ (path, k) := by
    intro hcontra
    exact hne (congrArg Prod.snd hcontra)
  refine ⟨coreEnsure path dk (Val.str A.dtype.render)
      (corePut path [(k, Val.bytes A.buffer)] st), ?_,
    ((path, [k]), [A.dtype]) :: cache,
    CoreState.mk
      (((path, dk), Val.str A.dtype.render) :: ((path, k), Val.bytes A.buffer) :: st.entries)
      (st.log ++ [CoreEvent.put path [(k, Val.bytes A.buffer)],
                  CoreEvent.ensure path dk (Val.str A.dtype.render),
                  CoreEvent.get path [k] lock,
                  CoreEvent.get path [dk] lock]), ?_⟩
  · simp only [numpy.put, ensureLoop, hdk, List.map_cons, List.map_nil]
  · simp only [numpy.get, coreGet, dtypes, corePut, coreEnsure, mapMO, mapME, alookup,
      List.foldl, hne2, if_neg, if_pos, hmiss, hdk, hrt, parse_dtype_val,
      frombufferVal, npFrombuffer, hsz1, hsz2, List.zip, List.zipWith,
      List.zip_cons_cons, List.zip_nil_right,
      List.append_assoc, List.cons_append, List.nil_append, List.singleton_append,
      if_neg, if_pos]
    simp [alookup, mapME, parse_dtype_val, hrt, hne2, hsz1, hsz2]

/-- Witness for C1: a four-byte `int32` array stored at key `x`. -/
theorem put_get_roundtrip_witness :
    ∃ st1, numpy.put corePut "p" [(PyKey.str "x", arrW)] st0 = Except.ok st1 ∧
      ∃ c2 st2, numpy.get coreGet "p" [PyKey.str "x"] false [] st1 =
        Except.ok ([NpArray.mk arrW.buffer arrW.dtype], c2, st2) :=
  put_get_roundtrip "p" (PyKey.str "x") (PyKey.str "x.dtype") arrW st0 [] false
    rfl rfl rfl (by decide) (by decide)
